import Mathlib

/-!
Verification of the conversation-relay orchestration engine.

This file gives a shallow embedding of the LLM provider adapters of the
repository (chiefly `src/services/llm/providers/openai-chat-completions.ts`,
with the interruption-message handling of
`src/services/llm/providers/openai-responses.ts` embedded separately), and
proves or refutes the frozen specification claims about them.

Modelling conventions:
* The OpenAI SDK's network calls are an `oracle` / `backend` parameter: a
  function from the current transcript to the returned stream of chunks
  (streaming) or the returned assistant message (non-streaming).  External
  interruption signals (the transport setting `userInterrupted` between two
  chunk deliveries) are interleaved into the stream as `interruptSignal`
  items; an exception thrown mid-stream is an `errorEvent` item.
* `JSON.parse` and the individual tool implementations (Google Sheets
  calls, mock-data lookups, ...) are external, so they are parameters
  gathered in `ToolEnv`; the dispatch table's keys and the privileged
  `human_agent_handoff` branch are embedded literally from the source.
* Event emissions (`this.emit(...)`) are recorded in an ordered trace; a
  `backendRequest` trace entry records each network request made.
* The unbounded recursive resubmission of the source is driven by a fuel
  parameter; `diverge` marks fuel exhaustion (the run still recursing).
* The `finally` block of `streamChatCompletion` runs on every exit of a
  level (normal return, early return, thrown error) and is modelled by
  `finallyBlock` applied via `withFinally`.
-/

namespace ConvRelay

/-- Message roles supported across providers (`MessageRole` in server.ts). -/
inductive Role
  | system
  | user
  | assistant
  | tool
deriving DecidableEq, Repr

/-- A tool call issued by the backend (`ToolCall` in server.ts). -/
structure ToolCall where
  id : String
  name : String
  arguments : String
deriving DecidableEq, Repr

/-- Provider-agnostic message (`BaseMessage` in server.ts).  `toolCalls`
is `Option` because the TypeScript field is optional and JavaScript
truthiness distinguishes an absent field from a present (even empty)
array. -/
structure BaseMessage where
  role : Role
  content : Option String
  toolCalls : Option (List ToolCall) := none
  toolCallId : Option String := none
deriving DecidableEq, Repr

/-- An OpenAI Chat Completions message as stored in `this.messages`. -/
structure ChatMessage where
  role : Role
  content : Option String := none
  tool_calls : List ToolCall := []
  tool_call_id : Option String := none
deriving DecidableEq, Repr

/-- JavaScript truthiness of an optional string: absent and `""` are falsy. -/
def optTruthy : Option String → Bool
  | some s => !s.isEmpty
  | none => false

/-- `convertToChatCompletionsFormat` applied to one message
(openai-chat-completions.ts lines 469-499). -/
def convertMsg (m : BaseMessage) : ChatMessage :=
  if m.role = .tool ∧ optTruthy m.toolCallId then
    { role := .tool, tool_call_id := m.toolCallId, content := some (m.content.getD "") }
  else if m.role = .assistant ∧ m.toolCalls.isSome then
    { role := .assistant, content := m.content, tool_calls := m.toolCalls.getD [] }
  else
    { role := m.role, content := some (m.content.getD "") }

/-- `convertToChatCompletionsFormat` on a list of messages. -/
def convertToChatCompletionsFormat (msgs : List BaseMessage) : List ChatMessage :=
  msgs.map convertMsg

/-- The mutable per-session fields of `BaseLLMService` (server.ts lines
153-158) together with the provider's transcript `this.messages` and the
stored `_interruptionMessage`.  `streamDepth` is an `Int` because the
`finally` block can drive it below zero before clamping. -/
structure SessionState where
  messages : List ChatMessage
  interruptionMessage : Option BaseMessage := none
  userInterrupted : Bool := false
  streamActive : Bool := false
  streamDepth : Int := 0
  shouldEndAfterStream : Bool := false
  awaitingPostInterruptPrompt : Bool := false
deriving DecidableEq, Repr

/-- `addInterruptionMessage` (openai-chat-completions.ts lines 72-77):
stores a narrowed copy holding only role and content. -/
def addInterruptionMessage (m : BaseMessage) (s : SessionState) : SessionState :=
  { s with interruptionMessage := some { role := m.role, content := m.content } }

/-- Events emitted by the service (`this.emit(...)`), in emission order,
plus the instrumentation entry `backendRequest` recording each network
request together with the transcript it carried. -/
inductive Event
  | backendRequest (msgs : List ChatMessage)
  | partialText (content : String)
  | streamComplete (content : String)
  | interrupted (partialResponse : String)
  | chatComplete (message : ChatMessage)
  | endInteraction
  | humanAgentHandoff (args : String)
  | switchLanguage (args : String)
  | toolCallError (msg : String)
deriving DecidableEq, Repr

/-- External dependencies of tool dispatch: `JSON.parse` (ok value is
represented by the canonical text it parsed from; error carries the thrown
message) and the imported tool implementations, name → parsed arguments →
result or thrown error. -/
structure ToolEnv where
  jsonParse : String → Except String String
  impls : String → String → Except String String

/-- The keys of the dispatch table literal in `executeToolCall`
(openai-chat-completions.ts lines 427-439). -/
def toolTableNames : List String :=
  ["check_increase_limit", "check_card_delivery", "troubleshoot_login_issues",
   "check_pending_bill", "search_common_medical_terms", "check_hsa_account",
   "check_payment_options", "switch_language", "identify_user",
   "add_survey_response", "book_driver"]

/-- The dispatch table lookup `toolFunction = {...}[name]`. -/
def lookupTool (env : ToolEnv) (name : String) : Option (String → Except String String) :=
  if toolTableNames.contains name then some (env.impls name) else none

/-- `executeToolCall` (openai-chat-completions.ts lines 414-464).  Returns
the updated session state, the events emitted, and the result string or
the thrown error's message.  The `human_agent_handoff` branch precedes the
table lookup; `switch_language` and `add_survey_response` have
side-channel effects after a successful run. -/
def executeToolCall (env : ToolEnv) (tc : ToolCall) (s : SessionState) :
    SessionState × List Event × Except String String :=
  if tc.name = "human_agent_handoff" then
    match env.jsonParse tc.arguments with
    | .error e => (s, [.toolCallError e], .error e)
    | .ok v => (s, [.humanAgentHandoff v],
        .ok "Handoff request initiated. Connecting you to a human agent.")
  else
    match lookupTool env tc.name with
    | none =>
        (s, [.toolCallError ("Tool " ++ tc.name ++ " not implemented")],
         .error ("Tool " ++ tc.name ++ " not implemented"))
    | some f =>
      match env.jsonParse tc.arguments with
      | .error e => (s, [.toolCallError e], .error e)
      | .ok v =>
        match f v with
        | .error e => (s, [.toolCallError e], .error e)
        | .ok result =>
          if tc.name = "switch_language" then
            (s, [.switchLanguage v], .ok result)
          else if tc.name = "add_survey_response" then
            ({ s with shouldEndAfterStream := true }, [], .ok result)
          else
            (s, [], .ok result)

/-- A tool-result message as assembled in the `Promise.all` mapper:
`(tool_call_id, role: "tool", content)`. -/
structure ToolResultMsg where
  tool_call_id : String
  content : String
deriving DecidableEq, Repr

/-- One arm of the `Promise.all` fan-out: run the tool, converting a
failure into the textual `Error executing tool: ...` result
(openai-chat-completions.ts lines 357-377). -/
def runToolCall (env : ToolEnv) (tc : ToolCall) (s : SessionState) :
    SessionState × List Event × ToolResultMsg :=
  match executeToolCall env tc s with
  | (s', evs, .ok r) => (s', evs, ⟨tc.id, r⟩)
  | (s', evs, .error e) => (s', evs, ⟨tc.id, "Error executing tool: " ++ e⟩)

/-- The `Promise.all` fan-out/fan-in over one round's tool calls.  In the
embedding concurrency collapses to the result array's order, which is the
order the calls were issued (this is what `Promise.all` guarantees). -/
def runToolRound (env : ToolEnv) : List ToolCall → SessionState →
    SessionState × List Event × List ToolResultMsg
  | [], s => (s, [], [])
  | tc :: rest, s =>
    let r1 := runToolCall env tc s
    let rr := runToolRound env rest r1.1
    (rr.1, r1.2.1 ++ rr.2.1, r1.2.2 :: rr.2.2)

/-- One tool-call fragment inside a streamed delta
(`chunk.choices[0].delta.tool_calls[i]`). -/
structure DeltaToolCall where
  id : Option String := none
  name : Option String := none
  arguments : Option String := none
deriving DecidableEq, Repr

/-- The delta of a streamed chunk. -/
structure Delta where
  content : Option String := none
  tool_calls : List DeltaToolCall := []
deriving DecidableEq, Repr

/-- `finish_reason` values the engine branches on. -/
inductive FinishReason
  | stop
  | toolCalls
deriving DecidableEq, Repr

/-- A streamed chunk (one choice, as the source indexes `choices[0]`). -/
structure Chunk where
  delta : Delta := {}
  finish_reason : Option FinishReason := none
deriving DecidableEq, Repr

/-- One item observed by the `for await` loop: a backend chunk, an
asynchronous external interruption (the transport setting
`userInterrupted` and optionally calling `addInterruptionMessage` between
two chunk deliveries), or an error thrown while reading the stream. -/
inductive StreamEvent
  | chunk (c : Chunk)
  | interruptSignal (msg : Option BaseMessage)
  | errorEvent (e : String)
deriving DecidableEq, Repr

/-- Append `extra` to the `arguments` of the last accumulated tool call
(the `lastToolCall.function.arguments += ...` mutation). -/
def extendLastArgs (extra : String) : List ToolCall → List ToolCall
  | [] => []
  | [tc] => [{ tc with arguments := tc.arguments ++ extra }]
  | tc :: rest => tc :: extendLastArgs extra rest

/-- Folding one delta fragment into the accumulated `toolCalls` array
(openai-chat-completions.ts lines 330-348): a truthy `id` starts a new
call, otherwise the fragment's arguments extend the last call (a no-op on
an empty accumulator, matching the source's length guard). -/
def pushToolDelta (acc : List ToolCall) (d : DeltaToolCall) : List ToolCall :=
  if optTruthy d.id then
    acc ++ [⟨d.id.getD "", d.name.getD "", d.arguments.getD ""⟩]
  else
    extendLastArgs (d.arguments.getD "") acc

/-- Outcome of a streaming run: normal return, a propagated exception
(state still updated by the `finally` blocks on the way out), or fuel
exhaustion, i.e. the run is still recursing.  All carry the ordered event
trace produced so far. -/
inductive StreamOut
  | ok (s : SessionState) (tr : List Event)
  | err (e : String) (s : SessionState) (tr : List Event)
  | diverge (tr : List Event)
deriving DecidableEq, Repr

/-- The event trace of an outcome. -/
def StreamOut.trace : StreamOut → List Event
  | .ok _ tr => tr
  | .err _ _ tr => tr
  | .diverge tr => tr

/-- The session state at the end of a run, when the run exited. -/
def StreamOut.endState : StreamOut → Option SessionState
  | .ok s _ => some s
  | .err _ s _ => some s
  | .diverge _ => none

/-- The `finally` block of `streamChatCompletion`
(openai-chat-completions.ts lines 402-411): decrement the depth; at depth
`<= 0` clamp it to `0`, release `streamActive` and reset
`userInterrupted`. -/
def finallyBlock (s : SessionState) : SessionState :=
  if s.streamDepth - 1 ≤ 0 then
    { s with streamDepth := 0, streamActive := false, userInterrupted := false }
  else
    { s with streamDepth := s.streamDepth - 1 }

/-- Apply the `finally` block to whatever way the `try` body exited.  A
diverging run never reaches `finally`. -/
def withFinally : StreamOut → StreamOut
  | .ok s tr => .ok (finallyBlock s) tr
  | .err e s tr => .err e (finallyBlock s) tr
  | .diverge tr => .diverge tr

/-- Prepend already-emitted events to an outcome's trace. -/
def addTrace (pre : List Event) : StreamOut → StreamOut
  | .ok s tr => .ok s (pre ++ tr)
  | .err e s tr => .err e s (pre ++ tr)
  | .diverge tr => .diverge (pre ++ tr)

/-- Lines 250-259 of openai-chat-completions.ts: if `userInterrupted` and
a pending interruption message exist, push its `(role, content)` through
the converter onto the transcript, then clear both. -/
def applyInterruption (s : SessionState) : SessionState :=
  match s.userInterrupted, s.interruptionMessage with
  | true, some im =>
    { s with
      messages := s.messages ++ [convertMsg { role := im.role, content := im.content }],
      interruptionMessage := none,
      userInterrupted := false }
  | _, _ => s

/-- Effect of an external interruption signal arriving between two chunk
deliveries: the transport sets `userInterrupted` and, when it supplies a
pending message, calls `addInterruptionMessage`. -/
def applyInterruptSignal (m : Option BaseMessage) (s : SessionState) : SessionState :=
  { s with userInterrupted := true,
           interruptionMessage :=
             match m with
             | some v => some { role := v.role, content := v.content }
             | none => s.interruptionMessage }

/-- The `newMessages` array built after a round of streamed tool calls
(openai-chat-completions.ts lines 381-392): one assistant message per tool
call followed by the tool results keyed by `toolCallId`, in call order. -/
def roundNewMessages (tcs : List ToolCall) (results : List ToolResultMsg) :
    List BaseMessage :=
  tcs.map (fun tc =>
    { role := .assistant, content := none, toolCalls := some [tc] })
  ++ results.map (fun r =>
    { role := .tool, content := some r.content, toolCallId := some r.tool_call_id })

/-- The `for await (const chunk of stream)` loop of `streamChatCompletion`
(openai-chat-completions.ts lines 296-397), parameterized by `recur`, the
recursive resubmission `this.streamChatCompletion(newMessages, ...)`.
`toolCalls` and `llmResponse` are the loop's accumulators. -/
def processChunks (env : ToolEnv)
    (recur : List BaseMessage → SessionState → StreamOut) :
    List StreamEvent → List ToolCall → String → SessionState → StreamOut
  | [], _, _, s => .ok s []
  | .interruptSignal m :: rest, toolCalls, llmResponse, s =>
    processChunks env recur rest toolCalls llmResponse (applyInterruptSignal m s)
  | .errorEvent e :: _, _, _, s => .err e s []
  | .chunk c :: rest, toolCalls, llmResponse, s =>
    if s.userInterrupted then
      .ok s [.interrupted llmResponse]
    else
      let content := c.delta.content.getD ""
      let resp := llmResponse ++ content
      if c.finish_reason = some .stop then
        let s' := { s with
          messages := s.messages ++
            [({ role := .assistant, content := some resp } : ChatMessage)] }
        if s'.shouldEndAfterStream then
          .ok { s' with shouldEndAfterStream := false }
            [.streamComplete content, .endInteraction]
        else
          addTrace [.streamComplete content]
            (processChunks env recur rest
              (c.delta.tool_calls.foldl pushToolDelta toolCalls) resp s')
      else
        let tcs' := c.delta.tool_calls.foldl pushToolDelta toolCalls
        if c.finish_reason = some .toolCalls then
          let r := runToolRound env tcs' s
          addTrace ([.partialText content] ++ r.2.1)
            (recur (roundNewMessages tcs' r.2.2) r.1)
        else
          addTrace [.partialText content]
            (processChunks env recur rest tcs' resp s)

/-- Lines 262-263: convert the incoming messages and push them onto the
transcript. -/
def pushIncoming (msgs : List BaseMessage) (s : SessionState) : SessionState :=
  { s with messages := s.messages ++ convertToChatCompletionsFormat msgs }

/-- Lines 272-273: mark the stream active and increment the depth. -/
def enterStream (s : SessionState) : SessionState :=
  { s with streamActive := true, streamDepth := s.streamDepth + 1 }

/-- `streamChatCompletion` (openai-chat-completions.ts lines 233-412).
The interruption message and the incoming messages are pushed, then the
`streamDepth === 0 && streamActive` guard rejects the request (its early
return still runs `finally`); otherwise the stream is requested from the
backend (`oracle`) and consumed by `processChunks`, with the recursive
resubmission running on one fuel less. -/
def streamChatCompletion (fuel : Nat) (env : ToolEnv)
    (oracle : List ChatMessage → List StreamEvent)
    (msgs : List BaseMessage) (s : SessionState) : StreamOut :=
  match fuel with
  | 0 => .diverge []
  | n + 1 =>
    let s2 := pushIncoming msgs (applyInterruption s)
    if s2.streamDepth = 0 ∧ s2.streamActive = true then
      withFinally (.ok s2 [])
    else
      withFinally (addTrace [.backendRequest (enterStream s2).messages]
        (processChunks env (fun ms st => streamChatCompletion n env oracle ms st)
          (oracle (enterStream s2).messages) [] "" (enterStream s2)))

/-- Outcome of the non-streaming `chatCompletion` path: the returned
completion message, the final state and the trace, or fuel exhaustion. -/
inductive ChatOut
  | ok (ret : ChatMessage) (s : SessionState) (tr : List Event)
  | diverge (tr : List Event)
deriving DecidableEq, Repr

/-- Trace of a non-streaming outcome. -/
def ChatOut.trace : ChatOut → List Event
  | .ok _ _ tr => tr
  | .diverge tr => tr

/-- Final state of a non-streaming outcome, when it exited. -/
def ChatOut.endState : ChatOut → Option SessionState
  | .ok _ s _ => some s
  | .diverge _ => none

/-- Returned message of a non-streaming outcome, when it exited. -/
def ChatOut.ret : ChatOut → Option ChatMessage
  | .ok r _ _ => some r
  | .diverge _ => none

/-- Prepend already-emitted events to a non-streaming outcome. -/
def addChatTrace (pre : List Event) : ChatOut → ChatOut
  | .ok r s tr => .ok r s (pre ++ tr)
  | .diverge tr => .diverge (pre ++ tr)

/-- `chatCompletion` (openai-chat-completions.ts lines 113-231), the
non-streaming path.  `backend` maps the transcript to the completion's
message (`completion.choices[0].message`).  When the message carries tool
calls, all are executed via the shared `Promise.all` mapper and the turn
is resubmitted recursively; otherwise the message is pushed, the
completion event fires, and the should-end flag may end the interaction. -/
def chatCompletion (fuel : Nat) (env : ToolEnv)
    (backend : List ChatMessage → ChatMessage)
    (msgs : List BaseMessage) (s : SessionState) : ChatOut :=
  match fuel with
  | 0 => .diverge []
  | n + 1 =>
    let s1 := pushIncoming msgs s
    let m := backend s1.messages
    if m.tool_calls ≠ [] then
      let r := runToolRound env m.tool_calls s1
      let newMessages : List BaseMessage :=
        ({ role := .assistant, content := m.content,
           toolCalls := some m.tool_calls } : BaseMessage) ::
        r.2.2.map (fun t =>
          { role := .tool, content := some t.content, toolCallId := some t.tool_call_id })
      addChatTrace (.backendRequest s1.messages :: r.2.1)
        (chatCompletion n env backend newMessages r.1)
    else
      let s2 := { s1 with messages := s1.messages ++ [m] }
      if s2.shouldEndAfterStream then
        .ok m { s2 with shouldEndAfterStream := false }
          [.backendRequest s1.messages, .chatComplete m, .endInteraction]
      else
        .ok m s2 [.backendRequest s1.messages, .chatComplete m]

/-- The interruption-message handling of the Responses-API provider
(openai-responses.ts lines 183-188): when `userInterrupted` and a pending
message exist, the pending message is pushed onto the END of the incoming
`messages` array, then cleared.  Returns the message list actually
submitted, the remaining pending message, and the `userInterrupted`
flag after this block. -/
def responsesPrepare (userInterrupted : Bool) (im : Option BaseMessage)
    (messages : List BaseMessage) : List BaseMessage × Option BaseMessage × Bool :=
  match userInterrupted, im with
  | true, some m => (messages ++ [m], none, false)
  | ui, imv => (messages, imv, ui)

/-! ### Trace classifiers and counters -/

/-- Is this event an `interrupted` emission? -/
def isInt : Event → Bool
  | .interrupted _ => true
  | _ => false

/-- Is this event a completion emission (`streamChatCompletion:complete`
or `chatCompletion:complete`)? -/
def isCompleteEv : Event → Bool
  | .streamComplete _ => true
  | .chatComplete _ => true
  | _ => false

/-- Is this event the `endInteraction` emission? -/
def isEndEv : Event → Bool
  | .endInteraction => true
  | _ => false

/-- Is this event a backend network request? -/
def isReqEv : Event → Bool
  | .backendRequest _ => true
  | _ => false

/-- Is this event a `humanAgentHandoff` emission? -/
def isHandoffEv : Event → Bool
  | .humanAgentHandoff _ => true
  | _ => false

/-- Events a tool execution may emit (handoff, language switch, tool
error): these are neither completions, interruptions, requests nor
end-of-interaction events. -/
def plainEv : Event → Bool
  | .humanAgentHandoff _ => true
  | .switchLanguage _ => true
  | .toolCallError _ => true
  | _ => false

/-- The trace contains no `interrupted` event. -/
def noInt (tr : List Event) : Bool := tr.all (fun e => !isInt e)

/-- Every `interrupted` event in the trace is its last element. -/
def intLast : List Event → Bool
  | [] => true
  | e :: rest => if isInt e then rest.isEmpty else intLast rest

/-- Scanner for "every `endInteraction` event immediately follows a
completion event"; `b` records whether the previous event was a
completion. -/
def eacAux (b : Bool) : List Event → Bool
  | [] => true
  | e :: rest =>
    if isEndEv e then b && eacAux false rest else eacAux (isCompleteEv e) rest

/-- The trace does not begin with `endInteraction`. -/
def headNotEnd : List Event → Bool
  | [] => true
  | e :: _ => !isEndEv e

/-- Invariant of every streaming trace: interruptions are terminal,
`endInteraction` immediately follows a completion, and the trace does not
begin with `endInteraction`. -/
def goodTrace (tr : List Event) : Bool :=
  intLast tr && eacAux false tr && headNotEnd tr

/-- Invariant of every non-streaming trace: additionally, no `interrupted`
event ever occurs. -/
def goodChat (tr : List Event) : Bool :=
  noInt tr && eacAux false tr && headNotEnd tr

/-- Number of backend requests in a trace. -/
def countReq (tr : List Event) : Nat := tr.countP isReqEv

/-- Number of completion events in a trace. -/
def countComplete (tr : List Event) : Nat := tr.countP isCompleteEv

/-- Number of `humanAgentHandoff` events in a trace. -/
def countHandoff (tr : List Event) : Nat := tr.countP isHandoffEv

/-! ### Concrete scenario inputs

These drive the closed scenario conjuncts, counterexamples and witnesses.
`env0` is a benign environment: `JSON.parse` succeeds on everything
(returning the text itself) and every known tool returns
`name ++ ":" ++ args`. -/

/-- Benign tool environment for concrete runs. -/
def env0 : ToolEnv := ⟨fun s => .ok s, fun n a => .ok (n ++ ":" ++ a)⟩

/-- A fresh session with an empty transcript and all flags clear. -/
def q0 : SessionState := { messages := [] }

/-- A plain user message. -/
def userMsg (t : String) : BaseMessage := { role := .user, content := some t }

/-- A backend whose stream never yields anything. -/
def oracle0 : List ChatMessage → List StreamEvent := fun _ => []

/-- A session state with `streamActive = true` and `streamDepth = 0`: the
state the single-active-turn guard tests for. -/
def sActive0 : SessionState := { messages := [], streamActive := true }

/-- The spec's interruption-flush scenario: chunks `"Hel"`, `"lo "`, then
an external interruption arrives before `"world"`. -/
def oracleHello : List ChatMessage → List StreamEvent := fun _ =>
  [.chunk { delta := { content := some "Hel" } },
   .chunk { delta := { content := some "lo " } },
   .interruptSignal none,
   .chunk { delta := { content := some "world" } }]

/-- A backend that answers every request with a fresh tool call and never
produces a final message. -/
def alwaysToolBackend : List ChatMessage → ChatMessage := fun _ =>
  { role := .assistant, content := none,
    tool_calls := [⟨"call_1", "loop_tool", ""⟩] }

/-- The messages the engine resubmits after one round against
`alwaysToolBackend`: the assistant's tool-call message followed by the
textual error result for the unknown tool. -/
def loopNewMessages : List BaseMessage :=
  [{ role := .assistant, content := none,
     toolCalls := some [⟨"call_1", "loop_tool", ""⟩] },
   { role := .tool,
     content := some "Error executing tool: Tool loop_tool not implemented",
     toolCallId := some "call_1" }]

/-- Streaming backend: round one requests an unknown tool, round two
(transcript has grown past the initial turn) answers normally. -/
def oracleBadTool : List ChatMessage → List StreamEvent := fun ms =>
  if ms.length ≤ 1 then
    [.chunk { delta := { tool_calls := [⟨some "call_bad", some "bogus_tool", some "x"⟩] },
              finish_reason := some .toolCalls }]
  else
    [.chunk { delta := { content := some "Recovered" }, finish_reason := some .stop }]

/-- Streaming backend: round one requests two tools in one round, round
two answers normally. -/
def oracleTwoTools : List ChatMessage → List StreamEvent := fun ms =>
  if ms.length ≤ 1 then
    [.chunk { delta := { tool_calls :=
        [⟨some "call_a", some "check_pending_bill", some "u1"⟩,
         ⟨some "call_b", some "check_increase_limit", some "u2"⟩] },
              finish_reason := some .toolCalls }]
  else
    [.chunk { delta := { content := some "Done" }, finish_reason := some .stop }]

/-- Streaming backend: round one calls `add_survey_response` (which sets
the should-end flag), round two completes with a goodbye. -/
def oracleSurvey : List ChatMessage → List StreamEvent := fun ms =>
  if ms.length ≤ 1 then
    [.chunk { delta := { tool_calls :=
        [⟨some "call_s", some "add_survey_response", some "5"⟩] },
              finish_reason := some .toolCalls }]
  else
    [.chunk { delta := { content := some "Bye" }, finish_reason := some .stop }]

/-- Streaming backend: round one calls `human_agent_handoff`, round two
completes with a courtesy message. -/
def oracleHandoff : List ChatMessage → List StreamEvent := fun ms =>
  if ms.length ≤ 1 then
    [.chunk { delta := { tool_calls :=
        [⟨some "call_h", some "human_agent_handoff", some "customer_request"⟩] },
              finish_reason := some .toolCalls }]
  else
    [.chunk { delta := { content := some "Connecting you now." },
              finish_reason := some .stop }]

/-- Streaming backend whose stream throws after one chunk. -/
def oracleErr : List ChatMessage → List StreamEvent := fun _ =>
  [.chunk { delta := { content := some "Hi" } }, .errorEvent "boom"]

/-- A pending interruption message used in concrete runs. -/
def interruptMsg0 : BaseMessage := { role := .user, content := some "wait" }

/-- Replace the interruption-related fields of a session state; used to
state that the non-streaming path cannot observe them. -/
def setUI (u : Bool) (i : Option BaseMessage) (s : SessionState) : SessionState :=
  { s with userInterrupted := u, interruptionMessage := i }

/-- Map a function over the final state of a non-streaming outcome. -/
def ChatOut.mapState (f : SessionState → SessionState) : ChatOut → ChatOut
  | .ok r s tr => .ok r (f s) tr
  | .diverge tr => .diverge tr

/-! ### Plumbing lemmas -/

@[simp]
lemma StreamOut.trace_ok (s : SessionState) (tr : List Event) :
    (StreamOut.ok s tr).trace = tr := rfl

@[simp]
lemma StreamOut.trace_err (e : String) (s : SessionState) (tr : List Event) :
    (StreamOut.err e s tr).trace = tr := rfl

@[simp]
lemma StreamOut.trace_diverge (tr : List Event) :
    (StreamOut.diverge tr).trace = tr := rfl

@[simp]
lemma StreamOut.endState_ok (s : SessionState) (tr : List Event) :
    (StreamOut.ok s tr).endState = some s := rfl

@[simp]
lemma StreamOut.endState_err (e : String) (s : SessionState) (tr : List Event) :
    (StreamOut.err e s tr).endState = some s := rfl

@[simp]
lemma StreamOut.endState_diverge (tr : List Event) :
    (StreamOut.diverge tr).endState = none := rfl

@[simp]
lemma applyInterruptSignal_streamDepth (m : Option BaseMessage) (s : SessionState) :
    (applyInterruptSignal m s).streamDepth = s.streamDepth := rfl

@[simp]
lemma applyInterruptSignal_streamActive (m : Option BaseMessage) (s : SessionState) :
    (applyInterruptSignal m s).streamActive = s.streamActive := rfl

@[simp]
lemma addTrace_trace (pre : List Event) (out : StreamOut) :
    (addTrace pre out).trace = pre ++ out.trace := by
  cases out <;> rfl

@[simp]
lemma withFinally_trace (out : StreamOut) :
    (withFinally out).trace = out.trace := by
  cases out <;> rfl

@[simp]
lemma addTrace_endState (pre : List Event) (out : StreamOut) :
    (addTrace pre out).endState = out.endState := by
  cases out <;> rfl

@[simp]
lemma withFinally_endState (out : StreamOut) :
    (withFinally out).endState = out.endState.map finallyBlock := by
  cases out <;> rfl

@[simp]
lemma addChatTrace_trace (pre : List Event) (out : ChatOut) :
    (addChatTrace pre out).trace = pre ++ out.trace := by
  cases out <;> rfl

@[simp]
lemma addChatTrace_endState (pre : List Event) (out : ChatOut) :
    (addChatTrace pre out).endState = out.endState := by
  cases out <;> rfl

@[simp]
lemma addChatTrace_ret (pre : List Event) (out : ChatOut) :
    (addChatTrace pre out).ret = out.ret := by
  cases out <;> rfl

/-! ### Tool dispatch lemmas -/

/-- `executeToolCall` mutates, at most, the should-end flag. -/
lemma executeToolCall_state (env : ToolEnv) (tc : ToolCall) (s : SessionState) :
    (executeToolCall env tc s).1 = s ∨
    (executeToolCall env tc s).1 = { s with shouldEndAfterStream := true } := by
  unfold executeToolCall
  repeat' split
  all_goals simp

/-- The events and the result of `executeToolCall` do not depend on the
session state. -/
lemma executeToolCall_indep (env : ToolEnv) (tc : ToolCall) (s s' : SessionState) :
    (executeToolCall env tc s).2 = (executeToolCall env tc s').2 := by
  unfold executeToolCall
  repeat' split
  all_goals rfl

/-- All events emitted by `executeToolCall` are tool-side events. -/
lemma executeToolCall_plain (env : ToolEnv) (tc : ToolCall) (s : SessionState) :
    ((executeToolCall env tc s).2.1).all plainEv = true := by
  unfold executeToolCall
  repeat' split
  all_goals rfl

/-- `runToolCall` in terms of `executeToolCall`. -/
lemma runToolCall_eq (env : ToolEnv) (tc : ToolCall) (s : SessionState) :
    runToolCall env tc s =
      ((executeToolCall env tc s).1, (executeToolCall env tc s).2.1,
       ⟨tc.id, match (executeToolCall env tc s).2.2 with
               | .ok r => r
               | .error e => "Error executing tool: " ++ e⟩) := by
  unfold runToolCall
  rcases h : executeToolCall env tc s with ⟨s1, evs, r⟩
  cases r <;> simp

/-- The recorded tool result is keyed by the call's id. -/
lemma runToolCall_id (env : ToolEnv) (tc : ToolCall) (s : SessionState) :
    (runToolCall env tc s).2.2.tool_call_id = tc.id := by
  rw [runToolCall_eq]

/-- The recorded tool result does not depend on the session state. -/
lemma runToolCall_indep (env : ToolEnv) (tc : ToolCall) (s s' : SessionState) :
    (runToolCall env tc s).2.2 = (runToolCall env tc s').2.2 := by
  rw [runToolCall_eq, runToolCall_eq, executeToolCall_indep env tc s s']

/-- A round of tool calls mutates, at most, the should-end flag. -/
lemma runToolRound_state (env : ToolEnv) (tcs : List ToolCall) (s : SessionState) :
    (runToolRound env tcs s).1 = s ∨
    (runToolRound env tcs s).1 = { s with shouldEndAfterStream := true } := by
  induction tcs generalizing s with
  | nil => left; rfl
  | cons tc rest ih =>
    simp only [runToolRound]
    rcases executeToolCall_state env tc s with h | h <;>
      rw [runToolCall_eq, h] <;>
      rcases ih _ with h2 | h2 <;> rw [h2] <;> simp

/-- The recorded results of one round are exactly the per-call results,
in the order the calls were issued; execution order and interleaving
cannot change them because each entry depends only on its own call. -/
lemma runToolRound_results (env : ToolEnv) (tcs : List ToolCall) (s : SessionState) :
    (runToolRound env tcs s).2.2 = tcs.map (fun tc => (runToolCall env tc s).2.2) := by
  induction tcs generalizing s with
  | nil => rfl
  | cons tc rest ih =>
    simp only [runToolRound, ih, List.map_cons, List.cons.injEq, true_and]
    exact List.map_congr_left fun a _ => runToolCall_indep env a _ s

/-- Exactly one result per issued call, keyed by its id, in issue order. -/
lemma runToolRound_ids (env : ToolEnv) (tcs : List ToolCall) (s : SessionState) :
    ((runToolRound env tcs s).2.2).map ToolResultMsg.tool_call_id =
      tcs.map ToolCall.id := by
  rw [runToolRound_results, List.map_map]
  exact List.map_congr_left fun a _ => runToolCall_id env a s

/-- All events emitted during a round are tool-side events. -/
lemma runToolRound_plain (env : ToolEnv) (tcs : List ToolCall) (s : SessionState) :
    ((runToolRound env tcs s).2.1).all plainEv = true := by
  induction tcs generalizing s with
  | nil => rfl
  | cons tc rest ih =>
    simp only [runToolRound, List.all_append, Bool.and_eq_true]
    exact ⟨by rw [runToolCall_eq]; exact executeToolCall_plain env tc s, ih _⟩

/-! ### Checker lemmas -/

lemma plainEv_classes (e : Event) (h : plainEv e = true) :
    isInt e = false ∧ isCompleteEv e = false ∧ isEndEv e = false := by
  cases e <;> simp_all [plainEv, isInt, isCompleteEv, isEndEv]

@[simp]
lemma intLast_cons (e : Event) (tr : List Event) :
    intLast (e :: tr) = if isInt e then tr.isEmpty else intLast tr := rfl

@[simp]
lemma eacAux_cons (b : Bool) (e : Event) (tr : List Event) :
    eacAux b (e :: tr) =
      if isEndEv e then b && eacAux false tr else eacAux (isCompleteEv e) tr := rfl

lemma intLast_append_plain (xs tr : List Event) (h : xs.all plainEv = true) :
    intLast (xs ++ tr) = intLast tr := by
  induction xs with
  | nil => rfl
  | cons e rest ih =>
    simp only [List.all_cons, Bool.and_eq_true] at h
    simp [(plainEv_classes e h.1).1, ih h.2]

lemma eacAux_false_append_plain (xs tr : List Event) (h : xs.all plainEv = true) :
    eacAux false (xs ++ tr) = eacAux false tr := by
  induction xs with
  | nil => rfl
  | cons e rest ih =>
    simp only [List.all_cons, Bool.and_eq_true] at h
    rcases plainEv_classes e h.1 with ⟨-, h2, h3⟩
    simp [h2, h3, ih h.2]

lemma eacAux_b_irrel (b b' : Bool) (tr : List Event) (h : headNotEnd tr = true) :
    eacAux b tr = eacAux b' tr := by
  cases tr with
  | nil => rfl
  | cons e rest =>
    simp only [headNotEnd, Bool.not_eq_true'] at h
    simp [h]

/-- A trace satisfying `intLast` has every `interrupted` event as its
final element. -/
lemma intLast_spec (tr : List Event) (h : intLast tr = true) :
    ∀ pre t post, tr = pre ++ .interrupted t :: post → post = [] := by
  intro pre
  induction pre generalizing tr with
  | nil =>
    intro t post he
    subst he
    simp [intLast, isInt, List.isEmpty_iff] at h
    exact h
  | cons e rest ih =>
    intro t post he
    subst he
    simp only [List.cons_append, intLast_cons] at h
    by_cases hi : isInt e = true
    · simp [hi, List.isEmpty_iff] at h
    · simp only [hi, Bool.false_eq_true, if_false] at h
      exact ih _ h t post rfl

/-- A trace accepted by the `eacAux` scanner has every `endInteraction`
event immediately preceded by a completion event (unless the scanner was
seeded with `b = true` and the event is first). -/
lemma eac_spec (pre : List Event) :
    ∀ b tr post, eacAux b tr = true → tr = pre ++ .endInteraction :: post →
      (pre = [] ∧ b = true) ∨
      ∃ pre' e, pre = pre' ++ [e] ∧ isCompleteEv e = true := by
  induction pre with
  | nil =>
    intro b tr post h he
    subst he
    left
    simp [eacAux, isEndEv, Bool.and_eq_true] at h
    exact ⟨rfl, h.1⟩
  | cons e rest ih =>
    intro b tr post h he
    subst he
    simp only [List.cons_append, eacAux_cons] at h
    right
    by_cases hend : isEndEv e = true
    · simp only [hend, if_true, Bool.and_eq_true] at h
      rcases ih false _ post h.2 rfl with ⟨hr, hb⟩ | ⟨pre', e', hpre, hc⟩
      · exact absurd hb (by simp)
      · exact ⟨e :: pre', e', by rw [hpre]; rfl, hc⟩
    · simp only [hend, Bool.false_eq_true, if_false] at h
      rcases ih _ _ post h rfl with ⟨hr, hb⟩ | ⟨pre', e', hpre, hc⟩
      · subst hr
        exact ⟨[], e, rfl, hb⟩
      · exact ⟨e :: pre', e', by rw [hpre]; rfl, hc⟩

/-! ### Trace invariants of the engine -/

lemma goodTrace_cons_nonend (e : Event) (tr : List Event)
    (h1 : isInt e = false) (h2 : isEndEv e = false)
    (h : goodTrace tr = true) : goodTrace (e :: tr) = true := by
  simp only [goodTrace, Bool.and_eq_true] at h ⊢
  obtain ⟨⟨hil, hea⟩, hhn⟩ := h
  refine ⟨⟨?_, ?_⟩, ?_⟩
  · simp [h1, hil]
  · simp only [eacAux_cons, h2, Bool.false_eq_true, if_false]
    rw [eacAux_b_irrel _ false _ hhn]
    exact hea
  · simp [headNotEnd, h2]

lemma goodTrace_plain_append (xs tr : List Event)
    (hxs : xs.all plainEv = true) (h : goodTrace tr = true) :
    goodTrace (xs ++ tr) = true := by
  simp only [goodTrace, Bool.and_eq_true] at h ⊢
  obtain ⟨⟨hil, hea⟩, hhn⟩ := h
  refine ⟨⟨?_, ?_⟩, ?_⟩
  · rw [intLast_append_plain _ _ hxs]; exact hil
  · rw [eacAux_false_append_plain _ _ hxs]; exact hea
  · cases xs with
    | nil => exact hhn
    | cons e rest =>
      simp only [List.all_cons, Bool.and_eq_true] at hxs
      simp [headNotEnd, (plainEv_classes e hxs.1).2.2]

/-- Every trace produced by the chunk loop is well-shaped, provided the
recursive resubmission only produces well-shaped traces. -/
lemma processChunks_good (env : ToolEnv)
    (recur : List BaseMessage → SessionState → StreamOut)
    (hrec : ∀ ms st, goodTrace (recur ms st).trace = true) :
    ∀ (events : List StreamEvent) (tcs : List ToolCall) (acc : String)
      (s : SessionState),
      goodTrace ((processChunks env recur events tcs acc s).trace) = true := by
  intro events
  induction events with
  | nil => intro tcs acc s; rfl
  | cons ev rest ih =>
    intro tcs acc s
    cases ev with
    | interruptSignal m => exact ih _ _ _
    | errorEvent e => rfl
    | chunk c =>
      simp only [processChunks]
      split
      · rfl
      · split
        · split
          · rfl
          · rw [addTrace_trace]
            exact goodTrace_cons_nonend _ _ rfl rfl (ih _ _ _)
        · split
          · rw [addTrace_trace, List.cons_append]
            exact goodTrace_cons_nonend _ _ rfl rfl
              (goodTrace_plain_append _ _ (runToolRound_plain env _ s) (hrec _ _))
          · rw [addTrace_trace]
            exact goodTrace_cons_nonend _ _ rfl rfl (ih _ _ _)

/-- Every trace produced by a streaming run is well-shaped: interruptions
are terminal and `endInteraction` immediately follows a completion. -/
lemma streamChatCompletion_good (fuel : Nat) (env : ToolEnv)
    (oracle : List ChatMessage → List StreamEvent) :
    ∀ msgs s, goodTrace (streamChatCompletion fuel env oracle msgs s).trace = true := by
  induction fuel with
  | zero => intro msgs s; rfl
  | succ n ih =>
    intro msgs s
    simp only [streamChatCompletion]
    split
    · rfl
    · rw [withFinally_trace, addTrace_trace, List.singleton_append]
      exact goodTrace_cons_nonend _ _ rfl rfl
        (processChunks_good env _ (fun ms st => ih ms st) _ _ _ _)

lemma goodChat_cons_nonend (e : Event) (tr : List Event)
    (h1 : isInt e = false) (h2 : isEndEv e = false)
    (h : goodChat tr = true) : goodChat (e :: tr) = true := by
  simp only [goodChat, Bool.and_eq_true] at h ⊢
  obtain ⟨⟨hni, hea⟩, hhn⟩ := h
  refine ⟨⟨?_, ?_⟩, ?_⟩
  · simp [noInt, h1]
    simpa [noInt] using hni
  · simp only [eacAux_cons, h2, Bool.false_eq_true, if_false]
    rw [eacAux_b_irrel _ false _ hhn]
    exact hea
  · simp [headNotEnd, h2]

lemma goodChat_plain_append (xs tr : List Event)
    (hxs : xs.all plainEv = true) (h : goodChat tr = true) :
    goodChat (xs ++ tr) = true := by
  simp only [goodChat, Bool.and_eq_true] at h ⊢
  obtain ⟨⟨hni, hea⟩, hhn⟩ := h
  refine ⟨⟨?_, ?_⟩, ?_⟩
  · simp only [noInt, List.all_append, Bool.and_eq_true]
    refine ⟨?_, hni⟩
    rw [List.all_eq_true] at hxs ⊢
    intro e he
    simp [(plainEv_classes e (hxs e he)).1]
  · rw [eacAux_false_append_plain _ _ hxs]; exact hea
  · cases xs with
    | nil => exact hhn
    | cons e rest =>
      simp only [List.all_cons, Bool.and_eq_true] at hxs
      simp [headNotEnd, (plainEv_classes e hxs.1).2.2]

/-- Every trace produced by the non-streaming path is well-shaped and, in
particular, never contains an `interrupted` event. -/
lemma chatCompletion_good (fuel : Nat) (env : ToolEnv)
    (backend : List ChatMessage → ChatMessage) :
    ∀ msgs s, goodChat (chatCompletion fuel env backend msgs s).trace = true := by
  induction fuel with
  | zero => intro msgs s; rfl
  | succ n ih =>
    intro msgs s
    simp only [chatCompletion]
    split
    · rw [addChatTrace_trace, List.cons_append]
      exact goodChat_cons_nonend _ _ rfl rfl
        (goodChat_plain_append _ _ (runToolRound_plain env _ _) (ih _ _))
    · split
      · rfl
      · rfl

/-! ### Depth and release invariants -/

lemma applyInterruption_streamDepth (s : SessionState) :
    (applyInterruption s).streamDepth = s.streamDepth := by
  unfold applyInterruption
  split <;> rfl

lemma applyInterruption_streamActive (s : SessionState) :
    (applyInterruption s).streamActive = s.streamActive := by
  unfold applyInterruption
  split <;> rfl

/-- Inside one level of the chunk loop the depth is constant and the
stream stays active, provided recursive resubmissions of a level entered
at positive depth also behave that way. -/
lemma processChunks_depth (env : ToolEnv)
    (recur : List BaseMessage → SessionState → StreamOut)
    (hrec : ∀ ms st s', 1 ≤ st.streamDepth → st.streamActive = true →
      (recur ms st).endState = some s' →
      s'.streamDepth = st.streamDepth ∧ s'.streamActive = true) :
    ∀ events tcs acc s s', 1 ≤ s.streamDepth → s.streamActive = true →
      (processChunks env recur events tcs acc s).endState = some s' →
      s'.streamDepth = s.streamDepth ∧ s'.streamActive = true := by
  intro events
  induction events with
  | nil =>
    intro tcs acc s s' hd ha h
    simp only [processChunks, StreamOut.endState_ok, Option.some.injEq] at h
    subst h
    exact ⟨rfl, ha⟩
  | cons ev rest ih =>
    intro tcs acc s s' hd ha h
    cases ev with
    | interruptSignal m =>
      simp only [processChunks] at h
      have := ih _ _ (applyInterruptSignal m s) s'
        (by simpa using hd) (by simpa using ha) h
      simpa using this
    | errorEvent e =>
      simp only [processChunks, StreamOut.endState_err, Option.some.injEq] at h
      subst h
      exact ⟨rfl, ha⟩
    | chunk c =>
      simp only [processChunks] at h
      split at h
      · simp only [StreamOut.endState_ok, Option.some.injEq] at h
        subst h
        exact ⟨rfl, ha⟩
      · split at h
        · split at h
          · simp only [StreamOut.endState_ok, Option.some.injEq] at h
            subst h
            exact ⟨rfl, ha⟩
          · rw [addTrace_endState] at h
            have := ih _ _ _ s' (by simpa using hd) (by simpa using ha) h
            simpa using this
        · split at h
          · rw [addTrace_endState] at h
            rcases runToolRound_state env
                (c.delta.tool_calls.foldl pushToolDelta tcs) s with hr | hr
            · have := hrec _ _ s' (by rw [hr]; exact hd) (by rw [hr]; exact ha) h
              rw [hr] at this
              exact this
            · have := hrec _ _ s'
                (by rw [hr]; simpa using hd) (by rw [hr]; simpa using ha) h
              rw [hr] at this
              simpa using this
          · rw [addTrace_endState] at h
            have := ih _ _ _ s' (by simpa using hd) (by simpa using ha) h
            simpa using this

@[simp]
lemma pushIncoming_streamDepth (msgs : List BaseMessage) (s : SessionState) :
    (pushIncoming msgs s).streamDepth = s.streamDepth := rfl

@[simp]
lemma pushIncoming_streamActive (msgs : List BaseMessage) (s : SessionState) :
    (pushIncoming msgs s).streamActive = s.streamActive := rfl

@[simp]
lemma enterStream_streamDepth (s : SessionState) :
    (enterStream s).streamDepth = s.streamDepth + 1 := rfl

@[simp]
lemma enterStream_streamActive (s : SessionState) :
    (enterStream s).streamActive = true := rfl

lemma finallyBlock_inner (s : SessionState) (h : 1 ≤ s.streamDepth - 1) :
    finallyBlock s = { s with streamDepth := s.streamDepth - 1 } := by
  unfold finallyBlock
  rw [if_neg (by omega)]

lemma finallyBlock_outer (s : SessionState) (h : s.streamDepth - 1 ≤ 0) :
    finallyBlock s = { s with streamDepth := 0, streamActive := false,
                              userInterrupted := false } := by
  unfold finallyBlock
  rw [if_pos h]

/-- Depth bookkeeping of `streamChatCompletion`: a level entered at
positive depth (an internal recursive resubmission) restores the depth and
leaves the stream active on every exit, normal or error; a level entered
at depth `0` with the stream idle (a fresh external turn) exits with depth
`0`, the stream released and `userInterrupted` reset. -/
lemma streamChatCompletion_depth (env : ToolEnv)
    (oracle : List ChatMessage → List StreamEvent) :
    ∀ (fuel : Nat) (msgs : List BaseMessage) (s s' : SessionState),
      (1 ≤ s.streamDepth → s.streamActive = true →
        (streamChatCompletion fuel env oracle msgs s).endState = some s' →
        s'.streamDepth = s.streamDepth ∧ s'.streamActive = true) ∧
      (s.streamDepth = 0 → s.streamActive = false →
        (streamChatCompletion fuel env oracle msgs s).endState = some s' →
        s'.streamDepth = 0 ∧ s'.streamActive = false ∧ s'.userInterrupted = false) := by
  intro fuel
  induction fuel with
  | zero =>
    intro msgs s s'
    constructor
    · intro _ _ h
      simp only [streamChatCompletion, StreamOut.endState_diverge] at h
      exact absurd h (by simp)
    · intro _ _ h
      simp only [streamChatCompletion, StreamOut.endState_diverge] at h
      exact absurd h (by simp)
  | succ n ih =>
    intro msgs s s'
    have hd2 : (pushIncoming msgs (applyInterruption s)).streamDepth = s.streamDepth := by
      rw [pushIncoming_streamDepth, applyInterruption_streamDepth]
    have ha2 : (pushIncoming msgs (applyInterruption s)).streamActive = s.streamActive := by
      rw [pushIncoming_streamActive, applyInterruption_streamActive]
    constructor
    · intro hd ha h
      simp only [streamChatCompletion] at h
      rw [if_neg (by rw [hd2]; omega)] at h
      rw [withFinally_endState, addTrace_endState, Option.map_eq_some'] at h
      obtain ⟨sl, hl, hfin⟩ := h
      have hstep := processChunks_depth env _
        (fun ms st s'' h1 h2 h3 => (ih ms st s'').1 h1 h2 h3) _ _ _ _ _
        (by rw [enterStream_streamDepth, hd2]; omega)
        (enterStream_streamActive _) hl
      rw [enterStream_streamDepth, hd2] at hstep
      subst hfin
      rw [finallyBlock_inner sl (by omega)]
      constructor
      · show sl.streamDepth - 1 = s.streamDepth
        omega
      · exact hstep.2
    · intro hd ha h
      simp only [streamChatCompletion] at h
      rw [if_neg (by rw [ha2]; simp [ha])] at h
      rw [withFinally_endState, addTrace_endState, Option.map_eq_some'] at h
      obtain ⟨sl, hl, hfin⟩ := h
      have hstep := processChunks_depth env _
        (fun ms st s'' h1 h2 h3 => (ih ms st s'').1 h1 h2 h3) _ _ _ _ _
        (by rw [enterStream_streamDepth, hd2]; omega)
        (enterStream_streamActive _) hl
      rw [enterStream_streamDepth, hd2, hd] at hstep
      subst hfin
      rw [finallyBlock_outer sl (by omega)]
      exact ⟨rfl, rfl, rfl⟩

/-! ### Noninterference of the non-streaming path -/

@[simp]
lemma setUI_messages (u : Bool) (i : Option BaseMessage) (s : SessionState) :
    (setUI u i s).messages = s.messages := rfl

@[simp]
lemma setUI_shouldEnd (u : Bool) (i : Option BaseMessage) (s : SessionState) :
    (setUI u i s).shouldEndAfterStream = s.shouldEndAfterStream := rfl

lemma pushIncoming_setUI (msgs : List BaseMessage) (u : Bool)
    (i : Option BaseMessage) (s : SessionState) :
    pushIncoming msgs (setUI u i s) = setUI u i (pushIncoming msgs s) := rfl

@[simp]
lemma mapState_addChatTrace (f : SessionState → SessionState)
    (pre : List Event) (out : ChatOut) :
    (addChatTrace pre out).mapState f = addChatTrace pre (out.mapState f) := by
  cases out <;> rfl

/-- `executeToolCall` neither reads nor writes the interruption fields. -/
lemma executeToolCall_setUI (env : ToolEnv) (tc : ToolCall) (u : Bool)
    (i : Option BaseMessage) (s : SessionState) :
    executeToolCall env tc (setUI u i s) =
      (setUI u i (executeToolCall env tc s).1, (executeToolCall env tc s).2) := by
  unfold executeToolCall setUI
  repeat' split
  all_goals rfl

lemma runToolCall_setUI (env : ToolEnv) (tc : ToolCall) (u : Bool)
    (i : Option BaseMessage) (s : SessionState) :
    runToolCall env tc (setUI u i s) =
      (setUI u i (runToolCall env tc s).1, (runToolCall env tc s).2) := by
  rw [runToolCall_eq, runToolCall_eq, executeToolCall_setUI]

lemma runToolRound_setUI (env : ToolEnv) : ∀ (tcs : List ToolCall) (u : Bool)
    (i : Option BaseMessage) (s : SessionState),
    runToolRound env tcs (setUI u i s) =
      (setUI u i (runToolRound env tcs s).1, (runToolRound env tcs s).2) := by
  intro tcs
  induction tcs with
  | nil => intro u i s; rfl
  | cons tc rest ih =>
    intro u i s
    simp only [runToolRound, runToolCall_setUI, ih]

/-- The non-streaming path is insensitive to the interruption fields: a
run from a state with any values of `userInterrupted` and the pending
interruption message is the same run, with those fields carried through
untouched. -/
lemma chatCompletion_setUI (env : ToolEnv)
    (backend : List ChatMessage → ChatMessage) :
    ∀ (fuel : Nat) (msgs : List BaseMessage) (u : Bool)
      (i : Option BaseMessage) (s : SessionState),
      chatCompletion fuel env backend msgs (setUI u i s) =
        (chatCompletion fuel env backend msgs s).mapState (setUI u i) := by
  intro fuel
  induction fuel with
  | zero => intro msgs u i s; rfl
  | succ n ih =>
    intro msgs u i s
    simp only [chatCompletion, pushIncoming_setUI, setUI_messages]
    split
    · rw [runToolRound_setUI]
      simp only [ih, mapState_addChatTrace]
    · rw [show (setUI u i (pushIncoming msgs s)).shouldEndAfterStream =
          (pushIncoming msgs s).shouldEndAfterStream from rfl]
      split <;> rfl

/-! ### Dispatch-failure computations -/

/-- A failed lookup: the name is outside the dispatch table. -/
lemma lookupTool_none (env : ToolEnv) (name : String)
    (h : name ∉ toolTableNames) : lookupTool env name = none := by
  unfold lookupTool
  rw [if_neg (by simpa using h)]

/-- A successful lookup returns the external implementation. -/
lemma lookupTool_some (env : ToolEnv) (name : String)
    (h : name ∈ toolTableNames) : lookupTool env name = some (env.impls name) := by
  unfold lookupTool
  rw [if_pos (by simpa using h)]

/-- An unknown tool name produces exactly one textual error result. -/
lemma runToolCall_unknown (env : ToolEnv) (tc : ToolCall) (s : SessionState)
    (h1 : tc.name ∉ toolTableNames) (h2 : tc.name ≠ "human_agent_handoff") :
    (runToolCall env tc s).2.2 =
      ⟨tc.id, "Error executing tool: " ++ ("Tool " ++ tc.name ++ " not implemented")⟩ := by
  rw [runToolCall_eq]
  unfold executeToolCall
  rw [if_neg h2, lookupTool_none env tc.name h1]

/-- Arguments that do not parse produce exactly one textual error result. -/
lemma runToolCall_badParse (env : ToolEnv) (tc : ToolCall) (s : SessionState)
    (e : String) (hp : env.jsonParse tc.arguments = .error e)
    (hm : tc.name ∈ toolTableNames) (h2 : tc.name ≠ "human_agent_handoff") :
    (runToolCall env tc s).2.2 = ⟨tc.id, "Error executing tool: " ++ e⟩ := by
  rw [runToolCall_eq]
  unfold executeToolCall
  rw [if_neg h2, lookupTool_some env tc.name hm, hp]

/-- A tool implementation that throws produces exactly one textual error
result. -/
lemma runToolCall_implErr (env : ToolEnv) (tc : ToolCall) (s : SessionState)
    (v e : String) (hp : env.jsonParse tc.arguments = .ok v)
    (hi : env.impls tc.name v = .error e)
    (hm : tc.name ∈ toolTableNames) (h2 : tc.name ≠ "human_agent_handoff") :
    (runToolCall env tc s).2.2 = ⟨tc.id, "Error executing tool: " ++ e⟩ := by
  rw [runToolCall_eq]
  unfold executeToolCall
  rw [if_neg h2, lookupTool_some env tc.name hm]
  simp [hp, hi]

/-! ### The capless tool loop -/

/-- One step against the looping backend, computed: one request, one
textual tool error, then the recursive resubmission of
`loopNewMessages`. -/
lemma chatCompletion_alwaysTool_step (n : Nat) (env : ToolEnv)
    (msgs : List BaseMessage) (s : SessionState) :
    chatCompletion (n + 1) env alwaysToolBackend msgs s =
      addChatTrace
        [.backendRequest (pushIncoming msgs s).messages,
         .toolCallError "Tool loop_tool not implemented"]
        (chatCompletion n env alwaysToolBackend loopNewMessages
          (pushIncoming msgs s)) := rfl

/-- Against a backend that always answers with a tool call, every unit of
fuel is spent on one more backend request: the loop never completes, never
errs, and emits no completion event.  There is no iteration cap. -/
lemma chatCompletion_alwaysTool (env : ToolEnv) :
    ∀ (fuel : Nat) (msgs : List BaseMessage) (s : SessionState),
      countReq (chatCompletion fuel env alwaysToolBackend msgs s).trace = fuel ∧
      countComplete (chatCompletion fuel env alwaysToolBackend msgs s).trace = 0 ∧
      (chatCompletion fuel env alwaysToolBackend msgs s).endState = none := by
  intro fuel
  induction fuel with
  | zero => intro msgs s; exact ⟨rfl, rfl, rfl⟩
  | succ n ih =>
    intro msgs s
    rw [chatCompletion_alwaysTool_step]
    obtain ⟨h1, h2, h3⟩ := ih loopNewMessages (pushIncoming msgs s)
    refine ⟨?_, ?_, ?_⟩
    · rw [addChatTrace_trace]
      simp only [countReq] at h1 ⊢
      simp [List.countP_append, List.countP_cons, isReqEv, h1]
    · rw [addChatTrace_trace]
      simp only [countComplete] at h2 ⊢
      simp [List.countP_append, List.countP_cons, isCompleteEv, h2]
    · rw [addChatTrace_endState]
      exact h3

@[simp]
lemma mapState_trace (f : SessionState → SessionState) (out : ChatOut) :
    (ChatOut.mapState f out).trace = out.trace := by
  cases out <;> rfl

@[simp]
lemma mapState_ret (f : SessionState → SessionState) (out : ChatOut) :
    (ChatOut.mapState f out).ret = out.ret := by
  cases out <;> rfl

@[simp]
lemma mapState_endState (f : SessionState → SessionState) (out : ChatOut) :
    (ChatOut.mapState f out).endState = out.endState.map f := by
  cases out <;> rfl

/-! ## The claims -/

/-- C1, amended: a second externally-submitted streaming turn issued while
`streamActive = true` and `streamDepth = 0` performs no backend request
and emits no events (empty trace), but it does not leave the transcript
unchanged: the incoming messages are pushed onto the transcript before the
guard runs, and the early return's `finally` block resets the stream flags
(`streamActive := false`, `streamDepth := 0`, `userInterrupted :=
false`). -/
theorem c1_single_active_turn_amended (fuel : Nat) (env : ToolEnv)
    (oracle : List ChatMessage → List StreamEvent)
    (msgs : List BaseMessage) (s : SessionState) :
    streamChatCompletion (fuel + 1) env oracle msgs
        { s with streamDepth := 0, streamActive := true, userInterrupted := false } =
      .ok { s with streamDepth := 0, streamActive := false, userInterrupted := false,
                   messages := s.messages ++ convertToChatCompletionsFormat msgs }
        [] := rfl

/-- C1, counterexample: from the concrete state `streamActive = true`,
`streamDepth = 0` with an empty transcript, submitting the turn
`[user "hi"]` performs no backend request (the trace is empty), but the
transcript is NOT left unchanged: the user message has been appended.
This refutes the claim's "leaves the transcript unchanged". -/
theorem c1_single_active_turn_counterexample :
    (streamChatCompletion 5 env0 oracle0 [userMsg "hi"] sActive0).trace = [] ∧
    (streamChatCompletion 5 env0 oracle0 [userMsg "hi"] sActive0).endState =
      some { messages := [{ role := .user, content := some "hi" }],
             streamActive := false } ∧
    ¬ ((streamChatCompletion 5 env0 oracle0 [userMsg "hi"] sActive0).endState.map
        SessionState.messages = some sActive0.messages) := by
  refine ⟨rfl, rfl, ?_⟩
  decide

/-- C2: once the interruption flag is observed at a chunk boundary the
engine emits one `interrupted` event carrying the text accumulated so far
and nothing after it — in any streaming run, an `interrupted` event is
always the last event of the turn's trace (so no completion event can
follow it, there is at most one, and chunk processing stops).  The second
conjunct is the spec's own flush scenario: partial chunks `"Hel"`,
`"lo "`, an interruption, then `"world"` produce
`interrupted("Hello ")` and no completion. -/
theorem c2_interruption_flush :
    (∀ (fuel : Nat) (env : ToolEnv)
       (oracle : List ChatMessage → List StreamEvent)
       (msgs : List BaseMessage) (s : SessionState)
       (pre : List Event) (t : String) (post : List Event),
       (streamChatCompletion fuel env oracle msgs s).trace =
         pre ++ .interrupted t :: post → post = []) ∧
    streamChatCompletion 3 env0 oracleHello [userMsg "hi"] q0 =
      .ok { messages := [{ role := .user, content := some "hi" }] }
        [.backendRequest [{ role := .user, content := some "hi" }],
         .partialText "Hel", .partialText "lo ", .interrupted "Hello "] := by
  constructor
  · intro fuel env oracle msgs s pre t post h
    have hg := streamChatCompletion_good fuel env oracle msgs s
    simp only [goodTrace, Bool.and_eq_true] at hg
    exact intLast_spec _ hg.1.1 pre t post h
  · decide

/-- Witness for C2: the interruption-flush scenario's trace splits with
the `interrupted` event last, and the theorem applied at that split yields
the (empty) tail. -/
theorem c2_interruption_flush_witness :
    (streamChatCompletion 3 env0 oracleHello [userMsg "hi"] q0).trace =
      [.backendRequest [{ role := .user, content := some "hi" }],
       .partialText "Hel", .partialText "lo ", .interrupted "Hello "] ∧
    ([] : List Event) = [] := by
  constructor
  · decide
  · exact c2_interruption_flush.1 3 env0 oracleHello [userMsg "hi"] q0
      [.backendRequest [{ role := .user, content := some "hi" }],
       .partialText "Hel", .partialText "lo "] "Hello " [] (by decide)

/-- C3, amended: the recursive tool-call loop has NO iteration cap.
Against a backend that always answers with a new tool call, every unit of
fuel is spent on one more backend request, no completion event is ever
emitted (no fallback answer), and the run never exits — the recursion is
unbounded. -/
theorem c3_tool_loop_amended (fuel : Nat) (env : ToolEnv)
    (msgs : List BaseMessage) (s : SessionState) :
    countReq (chatCompletion fuel env alwaysToolBackend msgs s).trace = fuel ∧
    countComplete (chatCompletion fuel env alwaysToolBackend msgs s).trace = 0 ∧
    (chatCompletion fuel env alwaysToolBackend msgs s).endState = none :=
  chatCompletion_alwaysTool env fuel msgs s

/-- C3, counterexample: allowed eleven rounds against an
always-tool-calling backend, the turn performs eleven backend requests —
past the claimed ten-round cap — emits no completion (no fallback textual
answer), and is still looping.  This refutes "the turn ends at a
configured iteration cap (e.g., 10 rounds) with a fallback textual
answer". -/
theorem c3_tool_loop_counterexample :
    countReq (chatCompletion 11 env0 alwaysToolBackend [] q0).trace = 11 ∧
    countComplete (chatCompletion 11 env0 alwaysToolBackend [] q0).trace = 0 ∧
    (chatCompletion 11 env0 alwaysToolBackend [] q0).endState = none :=
  chatCompletion_alwaysTool env0 11 [] q0

/-- C4: every tool call of a round yields exactly one tool-result message
keyed by its id (first conjunct: the result list's keys are the call ids,
one per call, in order); an unknown tool name or arguments that fail to
parse or a throwing implementation are converted into the textual result
`"Error executing tool: …"` rather than propagated (second to fourth
conjuncts); and a tool-level failure never aborts the turn — the closed
scenario drives a round with an unknown tool through to a normal
completion, the error text having been fed back to the backend in the
next request's transcript. -/
theorem c4_tool_error_feedback :
    (∀ (env : ToolEnv) (tcs : List ToolCall) (s : SessionState),
       ((runToolRound env tcs s).2.2).map ToolResultMsg.tool_call_id =
         tcs.map ToolCall.id) ∧
    (∀ (env : ToolEnv) (tc : ToolCall) (s : SessionState),
       tc.name ∉ toolTableNames → tc.name ≠ "human_agent_handoff" →
       (runToolCall env tc s).2.2 =
         ⟨tc.id, "Error executing tool: " ++
            ("Tool " ++ tc.name ++ " not implemented")⟩) ∧
    (∀ (env : ToolEnv) (tc : ToolCall) (s : SessionState) (e : String),
       env.jsonParse tc.arguments = .error e → tc.name ∈ toolTableNames →
       tc.name ≠ "human_agent_handoff" →
       (runToolCall env tc s).2.2 = ⟨tc.id, "Error executing tool: " ++ e⟩) ∧
    (∀ (env : ToolEnv) (tc : ToolCall) (s : SessionState) (v e : String),
       env.jsonParse tc.arguments = .ok v → env.impls tc.name v = .error e →
       tc.name ∈ toolTableNames → tc.name ≠ "human_agent_handoff" →
       (runToolCall env tc s).2.2 = ⟨tc.id, "Error executing tool: " ++ e⟩) ∧
    streamChatCompletion 3 env0 oracleBadTool [userMsg "hi"] q0 =
      .ok { messages :=
              [{ role := .user, content := some "hi" },
               { role := .assistant, content := none,
                 tool_calls := [⟨"call_bad", "bogus_tool", "x"⟩] },
               { role := .tool,
                 content := some "Error executing tool: Tool bogus_tool not implemented",
                 tool_call_id := some "call_bad" },
               { role := .assistant, content := some "Recovered" }] }
        [.backendRequest [{ role := .user, content := some "hi" }],
         .partialText "",
         .toolCallError "Tool bogus_tool not implemented",
         .backendRequest
           [{ role := .user, content := some "hi" },
            { role := .assistant, content := none,
              tool_calls := [⟨"call_bad", "bogus_tool", "x"⟩] },
            { role := .tool,
              content := some "Error executing tool: Tool bogus_tool not implemented",
              tool_call_id := some "call_bad" }],
         .streamComplete "Recovered"] := by
  refine ⟨runToolRound_ids, runToolCall_unknown, ?_, ?_, by decide⟩
  · intro env tc s e hp hm h2
    exact runToolCall_badParse env tc s e hp hm h2
  · intro env tc s v e hp hi hm h2
    exact runToolCall_implErr env tc s v e hp hi hm h2

/-- Witness for C4: dispatching the unknown tool `bogus_tool` produces
exactly the textual error result keyed by the call id. -/
theorem c4_tool_error_feedback_witness :
    (runToolCall env0 ⟨"c1", "bogus_tool", "x"⟩ q0).2.2 =
      ⟨"c1", "Error executing tool: " ++
         ("Tool " ++ "bogus_tool" ++ " not implemented")⟩ :=
  c4_tool_error_feedback.2.1 env0 ⟨"c1", "bogus_tool", "x"⟩ q0
    (by decide) (by decide)

/-- C5: within one round the tools' recorded results are exactly the
per-call results in the order the backend issued the calls, each keyed by
its `toolCallId` (first conjunct), and each recorded result depends only
on its own call — not on the session state threaded through the fan-out —
so any execution interleaving yields the same recorded round (second
conjunct).  The closed scenario runs a two-tool round and shows the next
request's transcript carrying both results in issue order under their
ids. -/
theorem c5_tool_result_order :
    (∀ (env : ToolEnv) (tcs : List ToolCall) (s : SessionState),
       (runToolRound env tcs s).2.2 =
         tcs.map (fun tc => (runToolCall env tc s).2.2)) ∧
    (∀ (env : ToolEnv) (tc : ToolCall) (s s' : SessionState),
       (runToolCall env tc s).2.2 = (runToolCall env tc s').2.2) ∧
    streamChatCompletion 3 env0 oracleTwoTools [userMsg "hi"] q0 =
      .ok { messages :=
              [{ role := .user, content := some "hi" },
               { role := .assistant, content := none,
                 tool_calls := [⟨"call_a", "check_pending_bill", "u1"⟩] },
               { role := .assistant, content := none,
                 tool_calls := [⟨"call_b", "check_increase_limit", "u2"⟩] },
               { role := .tool, content := some "check_pending_bill:u1",
                 tool_call_id := some "call_a" },
               { role := .tool, content := some "check_increase_limit:u2",
                 tool_call_id := some "call_b" },
               { role := .assistant, content := some "Done" }] }
        [.backendRequest [{ role := .user, content := some "hi" }],
         .partialText "",
         .backendRequest
           [{ role := .user, content := some "hi" },
            { role := .assistant, content := none,
              tool_calls := [⟨"call_a", "check_pending_bill", "u1"⟩] },
            { role := .assistant, content := none,
              tool_calls := [⟨"call_b", "check_increase_limit", "u2"⟩] },
            { role := .tool, content := some "check_pending_bill:u1",
              tool_call_id := some "call_a" },
            { role := .tool, content := some "check_increase_limit:u2",
              tool_call_id := some "call_b" }],
         .streamComplete "Done"] :=
  ⟨runToolRound_results, runToolCall_indep, by decide⟩

/-- C6, amended: when `userInterrupted` is set and a pending interruption
message exists at the next `streamChatCompletion` call, the
chat-completions provider pushes the pending message onto the transcript
BEFORE the turn's own messages (first conjunct: the backend request
carries `transcript ++ [pending] ++ turn`), and clears both the message
and the flag so it is applied at most once (second conjunct); the
Responses-API provider instead APPENDS the pending message AFTER the
turn's messages, also clearing it (third conjunct), and applies nothing
when the flag is down (fourth conjunct). -/
theorem c6_interruption_message_amended :
    (∀ (fuel : Nat) (env : ToolEnv)
       (oracle : List ChatMessage → List StreamEvent)
       (msgs : List BaseMessage) (s : SessionState) (m : BaseMessage),
       ∃ tr, (streamChatCompletion (fuel + 1) env oracle msgs
           { s with userInterrupted := true, interruptionMessage := some m,
                    streamDepth := 0, streamActive := false }).trace =
         .backendRequest
             ((s.messages ++ [convertMsg { role := m.role, content := m.content }]) ++
              convertToChatCompletionsFormat msgs) :: tr) ∧
    (∀ (env : ToolEnv) (msgs : List BaseMessage) (s : SessionState)
       (m : BaseMessage),
       streamChatCompletion 1 env oracle0 msgs
           { s with userInterrupted := true, interruptionMessage := some m,
                    streamDepth := 0, streamActive := false } =
         .ok { s with userInterrupted := false, interruptionMessage := none,
                      streamDepth := 0, streamActive := false,
                      messages := (s.messages ++
                          [convertMsg { role := m.role, content := m.content }]) ++
                        convertToChatCompletionsFormat msgs }
           [.backendRequest
              ((s.messages ++ [convertMsg { role := m.role, content := m.content }]) ++
               convertToChatCompletionsFormat msgs)]) ∧
    (∀ (m : BaseMessage) (msgs : List BaseMessage),
       responsesPrepare true (some m) msgs = (msgs ++ [m], none, false)) ∧
    (∀ (im : Option BaseMessage) (msgs : List BaseMessage),
       responsesPrepare false im msgs = (msgs, im, false)) := by
  refine ⟨?_, ?_, ?_, ?_⟩
  · intro fuel env oracle msgs s m
    simp only [streamChatCompletion]
    rw [if_neg (by simp [applyInterruption_streamActive])]
    rw [withFinally_trace, addTrace_trace, List.singleton_append]
    exact ⟨_, rfl⟩
  · intro env msgs s m
    rfl
  · intro m msgs
    rfl
  · intro im msgs
    cases im <;> rfl

/-- C6, counterexample: in the Responses-API provider, with the
interruption flag set and the pending message "wait", the next turn's
message list `[user "hello"]` is submitted as `[user "hello", "wait"]` —
the pending interruption message is appended AFTER the turn's content,
not prepended before it, refuting "prepended ... before any other content
of that turn". -/
theorem c6_interruption_message_counterexample :
    responsesPrepare true (some interruptMsg0) [userMsg "hello"] =
      ([userMsg "hello", interruptMsg0], none, false) ∧
    [userMsg "hello", interruptMsg0] ≠ [interruptMsg0, userMsg "hello"] :=
  ⟨rfl, by decide⟩

/-- C7: depth bookkeeping.  A `streamChatCompletion` level entered at
positive depth — an internal recursive tool-call resubmission — exits
(normally or by error) with the depth restored and the stream still
active: the lock is never released while an inner round is in progress.
A level entered at depth `0` with the stream idle — a fresh external turn
— exits with depth `0`, `streamActive` released and `userInterrupted`
reset, exactly when the depth returns to `0` in its `finally` block. -/
theorem c7_depth_release (fuel : Nat) (env : ToolEnv)
    (oracle : List ChatMessage → List StreamEvent)
    (msgs : List BaseMessage) (s s' : SessionState) :
    (1 ≤ s.streamDepth → s.streamActive = true →
      (streamChatCompletion fuel env oracle msgs s).endState = some s' →
      s'.streamDepth = s.streamDepth ∧ s'.streamActive = true) ∧
    (s.streamDepth = 0 → s.streamActive = false →
      (streamChatCompletion fuel env oracle msgs s).endState = some s' →
      s'.streamDepth = 0 ∧ s'.streamActive = false ∧ s'.userInterrupted = false) :=
  streamChatCompletion_depth env oracle fuel msgs s s'

/-- Witness for C7, on an error exit: a fresh external turn whose stream
throws mid-way still leaves depth `0`, the stream released and the
interruption flag reset. -/
theorem c7_depth_release_witness :
    (streamChatCompletion 2 env0 oracleErr [userMsg "hi"] q0).endState =
      some { messages := [{ role := .user, content := some "hi" }] } ∧
    (({ messages := [{ role := .user, content := some "hi" }] } :
        SessionState).streamDepth = 0 ∧
     ({ messages := [{ role := .user, content := some "hi" }] } :
        SessionState).streamActive = false ∧
     ({ messages := [{ role := .user, content := some "hi" }] } :
        SessionState).userInterrupted = false) := by
  constructor
  · decide
  · exact (c7_depth_release 2 env0 oracleErr [userMsg "hi"] q0
      { messages := [{ role := .user, content := some "hi" }] }).2
      rfl rfl (by decide)

/-- C8: in every streaming trace and every non-streaming trace, an
`endInteraction` event is emitted only immediately after a completion
event (first and second conjuncts).  The closed scenario drives the
`add_survey_response` tool (which sets the should-end flag) through a
round and a natural completion: the turn ends with `streamComplete`
directly followed by `endInteraction`, and the final state's
`shouldEndAfterStream` is cleared back to `false`. -/
theorem c8_end_after_complete :
    (∀ (fuel : Nat) (env : ToolEnv)
       (oracle : List ChatMessage → List StreamEvent)
       (msgs : List BaseMessage) (s : SessionState) (pre post : List Event),
       (streamChatCompletion fuel env oracle msgs s).trace =
         pre ++ .endInteraction :: post →
       ∃ pre' e, pre = pre' ++ [e] ∧ isCompleteEv e = true) ∧
    (∀ (fuel : Nat) (env : ToolEnv)
       (backend : List ChatMessage → ChatMessage)
       (msgs : List BaseMessage) (s : SessionState) (pre post : List Event),
       (chatCompletion fuel env backend msgs s).trace =
         pre ++ .endInteraction :: post →
       ∃ pre' e, pre = pre' ++ [e] ∧ isCompleteEv e = true) ∧
    streamChatCompletion 3 env0 oracleSurvey [userMsg "hi"] q0 =
      .ok { messages :=
              [{ role := .user, content := some "hi" },
               { role := .assistant, content := none,
                 tool_calls := [⟨"call_s", "add_survey_response", "5"⟩] },
               { role := .tool, content := some "add_survey_response:5",
                 tool_call_id := some "call_s" },
               { role := .assistant, content := some "Bye" }] }
        [.backendRequest [{ role := .user, content := some "hi" }],
         .partialText "",
         .backendRequest
           [{ role := .user, content := some "hi" },
            { role := .assistant, content := none,
              tool_calls := [⟨"call_s", "add_survey_response", "5"⟩] },
            { role := .tool, content := some "add_survey_response:5",
              tool_call_id := some "call_s" }],
         .streamComplete "Bye", .endInteraction] := by
  refine ⟨?_, ?_, by decide⟩
  · intro fuel env oracle msgs s pre post h
    have hg := streamChatCompletion_good fuel env oracle msgs s
    simp only [goodTrace, Bool.and_eq_true] at hg
    rcases eac_spec pre false _ post hg.1.2 h with ⟨-, hb⟩ | hx
    · exact absurd hb (by decide)
    · exact hx
  · intro fuel env backend msgs s pre post h
    have hg := chatCompletion_good fuel env backend msgs s
    simp only [goodChat, Bool.and_eq_true] at hg
    rcases eac_spec pre false _ post hg.1.2 h with ⟨-, hb⟩ | hx
    · exact absurd hb (by decide)
    · exact hx

/-- Witness for C8: applying the theorem at the survey scenario's trace
split exhibits the completion event directly preceding
`endInteraction`. -/
theorem c8_end_after_complete_witness :
    ∃ pre' e,
      ([.backendRequest [{ role := .user, content := some "hi" }],
        .partialText "",
        .backendRequest
          [{ role := .user, content := some "hi" },
           { role := .assistant, content := none,
             tool_calls := [⟨"call_s", "add_survey_response", "5"⟩] },
           { role := .tool, content := some "add_survey_response:5",
             tool_call_id := some "call_s" }],
        .streamComplete "Bye"] : List Event) = pre' ++ [e] ∧
      isCompleteEv e = true :=
  c8_end_after_complete.1 3 env0 oracleSurvey [userMsg "hi"] q0
    [.backendRequest [{ role := .user, content := some "hi" }],
     .partialText "",
     .backendRequest
       [{ role := .user, content := some "hi" },
        { role := .assistant, content := none,
          tool_calls := [⟨"call_s", "add_survey_response", "5"⟩] },
        { role := .tool, content := some "add_survey_response:5",
          tool_call_id := some "call_s" }],
     .streamComplete "Bye"] [] (by decide)

/-- C9: `human_agent_handoff` is privileged: for any environment (so for
any contents of the tool table's implementations) a call with parseable
arguments bypasses the table lookup entirely, emits exactly one
`humanAgentHandoff` event carrying the parsed arguments, and returns the
confirmation string as the tool result (first conjunct).  The closed
scenario shows the turn then completing normally: its trace carries
exactly one handoff event and exactly one completion. -/
theorem c9_handoff_privileged :
    (∀ (env : ToolEnv) (tc : ToolCall) (s : SessionState) (v : String),
       tc.name = "human_agent_handoff" → env.jsonParse tc.arguments = .ok v →
       executeToolCall env tc s =
         (s, [.humanAgentHandoff v],
          .ok "Handoff request initiated. Connecting you to a human agent.")) ∧
    streamChatCompletion 3 env0 oracleHandoff [userMsg "hi"] q0 =
      .ok { messages :=
              [{ role := .user, content := some "hi" },
               { role := .assistant, content := none,
                 tool_calls := [⟨"call_h", "human_agent_handoff", "customer_request"⟩] },
               { role := .tool,
                 content := some "Handoff request initiated. Connecting you to a human agent.",
                 tool_call_id := some "call_h" },
               { role := .assistant, content := some "Connecting you now." }] }
        [.backendRequest [{ role := .user, content := some "hi" }],
         .partialText "",
         .humanAgentHandoff "customer_request",
         .backendRequest
           [{ role := .user, content := some "hi" },
            { role := .assistant, content := none,
              tool_calls := [⟨"call_h", "human_agent_handoff", "customer_request"⟩] },
            { role := .tool,
              content := some "Handoff request initiated. Connecting you to a human agent.",
              tool_call_id := some "call_h" }],
         .streamComplete "Connecting you now."] ∧
    countHandoff
      [.backendRequest [{ role := .user, content := some "hi" }],
       .partialText "",
       .humanAgentHandoff "customer_request",
       .backendRequest
         [{ role := .user, content := some "hi" },
          { role := .assistant, content := none,
            tool_calls := [⟨"call_h", "human_agent_handoff", "customer_request"⟩] },
          { role := .tool,
            content := some "Handoff request initiated. Connecting you to a human agent.",
            tool_call_id := some "call_h" }],
       .streamComplete "Connecting you now."] = 1 ∧
    countComplete
      [.backendRequest [{ role := .user, content := some "hi" }],
       .partialText "",
       .humanAgentHandoff "customer_request",
       .backendRequest
         [{ role := .user, content := some "hi" },
          { role := .assistant, content := none,
            tool_calls := [⟨"call_h", "human_agent_handoff", "customer_request"⟩] },
          { role := .tool,
            content := some "Handoff request initiated. Connecting you to a human agent.",
            tool_call_id := some "call_h" }],
       .streamComplete "Connecting you now."] = 1 := by
  refine ⟨?_, by decide, by decide, by decide⟩
  intro env tc s v h1 hp
  unfold executeToolCall
  rw [if_pos h1, hp]

/-- Witness for C9: the handoff call with arguments "customer_request"
in the benign environment. -/
theorem c9_handoff_privileged_witness :
    executeToolCall env0 ⟨"call_h", "human_agent_handoff", "customer_request"⟩ q0 =
      (q0, [.humanAgentHandoff "customer_request"],
       .ok "Handoff request initiated. Connecting you to a human agent.") :=
  c9_handoff_privileged.1 env0
    ⟨"call_h", "human_agent_handoff", "customer_request"⟩ q0
    "customer_request" rfl rfl

/-- C10: the non-streaming `chatCompletion` path is insensitive to the
interruption state.  Two runs from states differing only in
`userInterrupted` and the pending interruption message produce the same
trace (so the same transcript-bearing requests and events), the same
returned completion, and final states that agree on everything except
those untouched fields; and no `interrupted` event ever occurs in a
non-streaming trace. -/
theorem c10_noninterference (fuel : Nat) (env : ToolEnv)
    (backend : List ChatMessage → ChatMessage) (msgs : List BaseMessage)
    (s : SessionState) (u1 u2 : Bool) (i1 i2 : Option BaseMessage) :
    (chatCompletion fuel env backend msgs (setUI u1 i1 s)).trace =
      (chatCompletion fuel env backend msgs (setUI u2 i2 s)).trace ∧
    (chatCompletion fuel env backend msgs (setUI u1 i1 s)).ret =
      (chatCompletion fuel env backend msgs (setUI u2 i2 s)).ret ∧
    ((chatCompletion fuel env backend msgs (setUI u1 i1 s)).endState).map
        (setUI false none) =
      ((chatCompletion fuel env backend msgs (setUI u2 i2 s)).endState).map
        (setUI false none) ∧
    noInt (chatCompletion fuel env backend msgs (setUI u1 i1 s)).trace = true := by
  rw [chatCompletion_setUI env backend fuel msgs u1 i1 s,
      chatCompletion_setUI env backend fuel msgs u2 i2 s]
  refine ⟨?_, ?_, ?_, ?_⟩
  · rw [mapState_trace, mapState_trace]
  · rw [mapState_ret, mapState_ret]
  · rw [mapState_endState, mapState_endState, Option.map_map, Option.map_map]
    rfl
  · rw [mapState_trace]
    have hg := chatCompletion_good fuel env backend msgs s
    simp only [goodChat, Bool.and_eq_true] at hg
    exact hg.1.1

end ConvRelay
